import Mathlib

/-!
Shallow embedding of `api_client.py` (class `ApiClient` of the Venmo client
library): JSON values, HTTP responses, the response validator, the request
wrapper, the synchronous/asynchronous call paths and the keyword-argument
filtering helper, together with theorems settling the specification claims.

Python dictionaries are modelled as association lists in insertion order
(lookup finds the first occurrence; assignment replaces the first occurrence
in place or appends; deletion removes the first occurrence), matching the
semantics of `dict` for the states the program actually builds (unique keys).
The HTTP exchange itself is modelled by an oracle parameter: the
`HttpResponse` the server would return, plus a record of the call that was
issued (or `none` when no network call happened).
-/

set_option autoImplicit false

/-- JSON values, the shape of request/response bodies. -/
inductive Json where
  | null : Json
  | bool : Bool → Json
  | num : Int → Json
  | str : String → Json
  | arr : List Json → Json
  | obj : List (String × Json) → Json

/-- Python truthiness of a JSON value (`if body:`). -/
def Json.pyTruthy : Json → Bool
  | .null => false
  | .bool b => b
  | .num n => n != 0
  | .str s => s != ""
  | .arr xs => !xs.isEmpty
  | .obj fs => !fs.isEmpty

/-- Truthiness of an optional value (`None` is falsy). -/
def pyTruthy? : Option Json → Bool
  | none => false
  | some j => j.pyTruthy

/-- First-occurrence lookup in an association list (`d[k]` / `d.get(k)`). -/
def lookupKey {α : Type} : List (String × α) → String → Option α
  | [], _ => none
  | (k0, v) :: rest, k => if k0 = k then some v else lookupKey rest k

/-- Python `d[k] = v`: replace the first binding of `k` in place, else append. -/
def setKey {α : Type} : List (String × α) → String → α → List (String × α)
  | [], k, v => [(k, v)]
  | (k0, v0) :: rest, k, v =>
      if k0 = k then (k, v) :: rest else (k0, v0) :: setKey rest k v

/-- Python `del d[k]`: drop the first binding of `k`. -/
def delKey {α : Type} : List (String × α) → String → List (String × α)
  | [], _ => []
  | (k0, v0) :: rest, k => if k0 = k then rest else (k0, v0) :: delKey rest k

/-- A raw HTTP response as seen by the client.  `body?` is `some j` when the
body is JSON-parseable (with parse result `j`) and `none` otherwise. -/
structure HttpResponse where
  status_code : Nat
  headers : List (String × String)
  body? : Option Json

/-- The exceptions the code can raise: the three typed errors of
`models.exception`, plus the Python built-in errors its expressions can
produce (`AttributeError` from `None.get`/non-dict `.get`, the JSON decode
error from `response.json()` on an unparseable body, `KeyError` from
`params['kwargs']`, `TypeError` from `clean_kwargs`). -/
inductive ApiError where
  | resourceNotFound : ApiError
  | invalidHttpMethod : ApiError
  | httpCode (response : HttpResponse) : ApiError
  | attributeError : ApiError
  | jsonDecodeError : ApiError
  | keyError (key : String) : ApiError
  | typeError (msg : String) : ApiError

/-- `response.json()`: the parsed body, or the decode error when the body is
not JSON-parseable. -/
def HttpResponse.json (r : HttpResponse) : Except ApiError Json :=
  match r.body? with
  | some j => .ok j
  | none => .error .jsonDecodeError

/-- Python `x.get(k)` where `x` came from JSON: on a dict, the value bound to
`k` or `None`; on anything else (including `None`), `AttributeError`. -/
def Json.get (j : Json) (k : String) : Except ApiError Json :=
  match j with
  | .obj fields => .ok ((lookupKey fields k).getD Json.null)
  | _ => .error .attributeError

/-- The Response Result dictionary
`{"status_code": ..., "headers": ..., "body": response.json()}`. -/
structure ResponseResult where
  status_code : Nat
  headers : List (String × String)
  body : Json

/-- `ApiClient.validate_response`.  The first branch's conjunct
`response.json` is the bound method object, which is always truthy, so only
the status-code test is effective there.  The 400 branch evaluates
`response.json().get('error').get('code') == 283` left to right, with each
step able to raise. -/
def validate_response (response : HttpResponse) : Except ApiError HttpResponse :=
  if 200 ≤ response.status_code ∧ response.status_code < 205 then
    .ok response
  else if response.status_code = 400 then
    match response.json with
    | .error e => .error e
    | .ok parsed =>
      match parsed.get "error" with
      | .error e => .error e
      | .ok errval =>
        match errval.get "code" with
        | .error e => .error e
        | .ok code =>
          match code with
          | .num n =>
              if n = 283 then .error .resourceNotFound
              else .error (.httpCode response)
          | _ => .error (.httpCode response)
  else
    .error (.httpCode response)

/-- The method allow-list of `ApiClient.request`. -/
def httpMethods : List String := ["POST", "PUT", "GET", "DELETE"]

/-- The HTTP call handed to `session.request(...)`: method, URL, headers,
query parameters and JSON body exactly as passed. -/
structure HttpCall where
  method : String
  url : String
  headers : Option (List (String × String))
  params : Option (List (String × String))
  body : Option Json

/-- `ApiClient.request`.  `serverResponse` is the oracle: the response the
session would deliver for this call.  The second component records the call
issued on the session, `none` when the method check failed before any
network I/O.  On success the returned dictionary re-parses the body via
`response.json()`. -/
def request (method url : String) (serverResponse : HttpResponse)
    (header_params : Option (List (String × String)))
    (params : Option (List (String × String)))
    (body : Option Json) :
    Except ApiError ResponseResult × Option HttpCall :=
  if method ∈ httpMethods then
    let issued : HttpCall :=
      { method := method, url := url, headers := header_params
        params := params, body := body }
    let result : Except ApiError ResponseResult :=
      match validate_response serverResponse with
      | .error e => .error e
      | .ok response =>
        match response.json with
        | .error e => .error e
        | .ok parsed =>
            .ok { status_code := response.status_code
                  headers := response.headers, body := parsed }
    (result, some issued)
  else
    (.error .invalidHttpMethod, none)

/-- `ApiClient.__init__`'s fixed host, `configuration['host']`. -/
def venmoHost : String := "https://api.venmo.com/v1"

/-- Which session a call used: the client's long-lived primary session, or a
`requests.Session()` freshly created for a background worker. -/
inductive SessionKind where
  | primary : SessionKind
  | fresh : SessionKind

/-- The headers `ApiClient.__call_api` builds before delegating to `request`:
`header_params or {}`, then `Content-Type: application/json` added when
`body` is truthy. -/
def effective_headers (header_params : Option (List (String × String)))
    (body : Option Json) : List (String × String) :=
  let hp := header_params.getD []
  if pyTruthy? body then setKey hp "Content-Type" "application/json" else hp

/-- The `request` invocation `ApiClient.__call_api` performs, with the URL
`configuration['host'] + resource_path` and the effective headers. -/
def issued_request (resource_path method : String)
    (header_params : Option (List (String × String)))
    (params : Option (List (String × String)))
    (body : Option Json) (serverResponse : HttpResponse) :
    Except ApiError ResponseResult × Option HttpCall :=
  request method (venmoHost ++ resource_path) serverResponse
    (some (effective_headers header_params body)) params body

/-- Everything observable about one execution of `ApiClient.__call_api`:
which session it used, the call issued on that session, the value it
returned (or the error it raised), the argument passed to the callback, and
the client's `last_response` field afterwards. -/
structure CallOutcome where
  sessionUsed : SessionKind
  issuedCall : Option HttpCall
  result : Except ApiError (Option ResponseResult)
  callbackArg : Option ResponseResult
  lastResponseAfter : Option ResponseResult

/-- `ApiClient.__call_api`.  With a callback the call runs on a fresh
session, stores `last_response`, hands the processed response to the
callback and returns `None`; without one it runs on the primary session,
stores `last_response` and returns the processed response.  An error from
`request` propagates before `last_response` is written or the callback is
invoked. -/
def call_api_core (resource_path method : String)
    (header_params : Option (List (String × String)))
    (params : Option (List (String × String)))
    (body : Option Json) (hasCallback : Bool)
    (serverResponse : HttpResponse)
    (lastResponseBefore : Option ResponseResult) : CallOutcome :=
  match (issued_request resource_path method header_params params body
          serverResponse).fst with
  | .error e =>
      { sessionUsed := if hasCallback then .fresh else .primary
        issuedCall := (issued_request resource_path method header_params params
          body serverResponse).snd
        result := .error e
        callbackArg := none, lastResponseAfter := lastResponseBefore }
  | .ok processed =>
      if hasCallback then
        { sessionUsed := .fresh
          issuedCall := (issued_request resource_path method header_params
            params body serverResponse).snd
          result := .ok none
          callbackArg := some processed, lastResponseAfter := some processed }
      else
        { sessionUsed := .primary
          issuedCall := (issued_request resource_path method header_params
            params body serverResponse).snd
          result := .ok (some processed), callbackArg := none
          lastResponseAfter := some processed }

/-- The argument tuple `threading.Thread(target=self.__call_api, args=...)`
captures: running the thread replays `__call_api` on these arguments with
the callback supplied. -/
structure WorkerThread where
  resource_path : String
  method : String
  header_params : Option (List (String × String))
  params : Option (List (String × String))
  body : Option Json

/-- What `ApiClient.call_api` hands back: the processed response (the return
value of `__call_api`, which is `None` on the callback path) or the started
thread object. -/
inductive CallApiReturn where
  | sync (r : Option ResponseResult) : CallApiReturn
  | thread (worker : WorkerThread) : CallApiReturn

/-- `ApiClient.call_api`: with no callback it runs `__call_api` on the
calling thread and returns its result (propagating its error); with a
callback it builds the worker thread, starts it and returns the thread
object at once, regardless of what the worker will do. -/
def call_api (resource_path method : String)
    (header_params : Option (List (String × String)))
    (params : Option (List (String × String)))
    (body : Option Json) (hasCallback : Bool)
    (serverResponse : HttpResponse)
    (lastResponseBefore : Option ResponseResult) :
    Except ApiError CallApiReturn :=
  if hasCallback then
    .ok (.thread { resource_path := resource_path, method := method
                   header_params := header_params, params := params
                   body := body })
  else
    match (call_api_core resource_path method header_params params body false
            serverResponse lastResponseBefore).result with
    | .error e => .error e
    | .ok r => .ok (.sync r)

/-- Executing the spawned worker thread: `__call_api` with the captured
arguments and the callback present. -/
def runWorker (w : WorkerThread) (serverResponse : HttpResponse)
    (lastResponseBefore : Option ResponseResult) : CallOutcome :=
  call_api_core w.resource_path w.method w.header_params w.params w.body true
    serverResponse lastResponseBefore

/-- `ApiClient.__validate_access_token`: Python slice `access_token[:6]`
compared against the correctly spelled marker, but the prepended marker is
the source's misspelled `"Barear"`. -/
def validate_access_token (access_token : String) : String :=
  if access_token.take 6 ≠ "Bearer" then "Barear " ++ access_token
  else access_token

/-- The exact `TypeError` message `clean_kwargs` raises (the two adjacent
Python string literals concatenate). -/
def unexpected_kwarg_msg (key : String) : String :=
  "Got an unexpected keyword argument \x27" ++ key ++
    "\x27 to method bla bla"

/-- The `for key, val in iteritems(params['kwargs'])` loop of `clean_kwargs`,
threading the mutated `params` dictionary.  On the first key outside the
allow-list it stops with the `TypeError` and the dictionary as mutated so
far; otherwise it returns the dictionary with every entry assigned. -/
def clean_kwargs_loop (all_params : List String) :
    List (String × Json) → List (String × Json) →
    Option ApiError × List (String × Json)
  | [], params => (none, params)
  | (key, val) :: rest, params =>
      if key ∈ all_params then
        clean_kwargs_loop all_params rest (setKey params key val)
      else
        (some (.typeError (unexpected_kwarg_msg key)), params)

/-- `ApiClient.clean_kwargs` with the in-place mutation made explicit: the
first component is the raised error or returned dictionary, the second is
the state of the argument dictionary `params` after the call (the two
coincide on success, since the function returns its mutated argument). -/
def clean_kwargs_run (all_params : List String)
    (params : List (String × Json)) :
    Except ApiError (List (String × Json)) × List (String × Json) :=
  match lookupKey params "kwargs" with
  | none => (.error (.keyError "kwargs"), params)
  | some (Json.obj bucket) =>
      match clean_kwargs_loop all_params bucket params with
      | (some e, mutated) => (.error e, mutated)
      | (none, mutated) =>
          let final := delKey mutated "kwargs"
          (.ok final, final)
  | some _ => (.error .attributeError, params)

/-- `ApiClient.clean_kwargs`, result only. -/
def clean_kwargs (all_params : List String)
    (params : List (String × Json)) :
    Except ApiError (List (String × Json)) :=
  (clean_kwargs_run all_params params).fst

/-! ### Association-list lemmas -/

theorem lookupKey_eq_none_of_not_mem {α : Type} (p : List (String × α)) (k : String)
    (h : k ∉ p.map Prod.fst) : lookupKey p k = none := by
  induction p with
  | nil => rfl
  | cons hd tl ih =>
      obtain ⟨k0, v0⟩ := hd
      simp only [List.map_cons, List.mem_cons, not_or] at h
      have hne : ¬(k0 = k) := fun he => h.1 he.symm
      simp only [lookupKey, hne, if_false]
      exact ih h.2

theorem lookupKey_setKey_self {α : Type} (p : List (String × α)) (k : String) (v : α) :
    lookupKey (setKey p k v) k = some v := by
  induction p with
  | nil => simp [setKey, lookupKey]
  | cons hd tl ih =>
      obtain ⟨k0, v0⟩ := hd
      by_cases h : k0 = k
      · simp [setKey, h, lookupKey]
      · simp only [setKey, h, if_false, lookupKey]
        exact ih

theorem lookupKey_setKey_ne {α : Type} (p : List (String × α)) (k' k : String) (v : α)
    (h : k' ≠ k) : lookupKey (setKey p k' v) k = lookupKey p k := by
  induction p with
  | nil => simp [setKey, lookupKey, h]
  | cons hd tl ih =>
      obtain ⟨k0, v0⟩ := hd
      by_cases h0 : k0 = k'
      · subst h0
        simp [setKey, lookupKey, h]
      · simp only [setKey, h0, if_false, lookupKey]
        by_cases h1 : k0 = k
        · simp [h1]
        · simp only [h1, if_false]
          exact ih

theorem lookupKey_delKey_ne {α : Type} (p : List (String × α)) (k' k : String)
    (h : k' ≠ k) : lookupKey (delKey p k') k = lookupKey p k := by
  induction p with
  | nil => rfl
  | cons hd tl ih =>
      obtain ⟨k0, v0⟩ := hd
      by_cases h0 : k0 = k'
      · subst h0
        have h1 : ¬(k0 = k) := h
        simp [delKey, lookupKey, h1]
      · simp only [delKey, h0, if_false, lookupKey]
        by_cases h1 : k0 = k
        · simp [h1]
        · simp only [h1, if_false]
          exact ih

theorem mem_keys_setKey {α : Type} (p : List (String × α)) (k : String) (v : α)
    (k1 : String) (h : k1 ∈ (setKey p k v).map Prod.fst) :
    k1 ∈ p.map Prod.fst ∨ k1 = k := by
  induction p with
  | nil =>
      simp only [setKey, List.map_cons, List.map_nil, List.mem_singleton] at h
      exact Or.inr h
  | cons hd tl ih =>
      obtain ⟨k0, v0⟩ := hd
      by_cases h0 : k0 = k
      · subst h0
        simp only [setKey, if_true] at h
        simp only [List.map_cons, List.mem_cons] at h
        rcases h with h | h
        · exact Or.inr h
        · exact Or.inl (List.mem_cons.mpr (Or.inr h))
      · simp only [setKey] at h
        rw [if_neg h0] at h
        simp only [List.map_cons, List.mem_cons] at h
        rcases h with h | h
        · exact Or.inl (List.mem_cons.mpr (Or.inl h))
        · rcases ih h with h' | h'
          · exact Or.inl (List.mem_cons.mpr (Or.inr h'))
          · exact Or.inr h'

theorem nodup_keys_setKey {α : Type} (p : List (String × α)) (k : String) (v : α)
    (h : (p.map Prod.fst).Nodup) : ((setKey p k v).map Prod.fst).Nodup := by
  induction p with
  | nil => simp [setKey]
  | cons hd tl ih =>
      obtain ⟨k0, v0⟩ := hd
      simp only [List.map_cons, List.nodup_cons] at h
      by_cases h0 : k0 = k
      · subst h0
        simp only [setKey, if_true]
        simp only [List.map_cons, List.nodup_cons]
        exact h
      · simp only [setKey]
        rw [if_neg h0]
        simp only [List.map_cons, List.nodup_cons]
        refine ⟨fun hmem => ?_, ih h.2⟩
        rcases mem_keys_setKey tl k v k0 hmem with h' | h'
        · exact h.1 h'
        · exact h0 h'

theorem lookupKey_delKey_self {α : Type} (p : List (String × α)) (k : String)
    (h : (p.map Prod.fst).Nodup) : lookupKey (delKey p k) k = none := by
  induction p with
  | nil => rfl
  | cons hd tl ih =>
      obtain ⟨k0, v0⟩ := hd
      simp only [List.map_cons, List.nodup_cons] at h
      by_cases h0 : k0 = k
      · subst h0
        simp only [delKey, if_pos rfl]
        exact lookupKey_eq_none_of_not_mem tl k0 h.1
      · simp only [delKey, h0, if_false, lookupKey]
        exact ih h.2

/-! ### Lemmas about the `clean_kwargs` merge loop -/

theorem clean_kwargs_loop_fst_eq_none (allP : List String)
    (bucket params : List (String × Json))
    (h : ∀ k v, (k, v) ∈ bucket → k ∈ allP) :
    (clean_kwargs_loop allP bucket params).fst = none := by
  induction bucket generalizing params with
  | nil => rfl
  | cons hd tl ih =>
      obtain ⟨k0, v0⟩ := hd
      have hk0 : k0 ∈ allP := h k0 v0 (List.mem_cons_self _ _)
      simp only [clean_kwargs_loop, if_pos hk0]
      exact ih (setKey params k0 v0) (fun k v hm => h k v (List.mem_cons_of_mem _ hm))

theorem clean_kwargs_loop_nodup (allP : List String)
    (bucket params : List (String × Json))
    (h : (params.map Prod.fst).Nodup) :
    (((clean_kwargs_loop allP bucket params).snd).map Prod.fst).Nodup := by
  induction bucket generalizing params with
  | nil => exact h
  | cons hd tl ih =>
      obtain ⟨k0, v0⟩ := hd
      by_cases hk0 : k0 ∈ allP
      · simp only [clean_kwargs_loop, if_pos hk0]
        exact ih (setKey params k0 v0) (nodup_keys_setKey params k0 v0 h)
      · simp only [clean_kwargs_loop, if_neg hk0]
        exact h

theorem clean_kwargs_loop_lookup_not_mem (allP : List String)
    (bucket params : List (String × Json)) (k : String)
    (h : k ∉ bucket.map Prod.fst) :
    lookupKey (clean_kwargs_loop allP bucket params).snd k = lookupKey params k := by
  induction bucket generalizing params with
  | nil => rfl
  | cons hd tl ih =>
      obtain ⟨k0, v0⟩ := hd
      simp only [List.map_cons, List.mem_cons, not_or] at h
      by_cases hk0 : k0 ∈ allP
      · simp only [clean_kwargs_loop, if_pos hk0]
        rw [ih (setKey params k0 v0) h.2]
        exact lookupKey_setKey_ne params k0 k v0 (fun he => h.1 he.symm)
      · simp only [clean_kwargs_loop, if_neg hk0]

theorem clean_kwargs_loop_lookup_mem (allP : List String)
    (bucket params : List (String × Json)) (k : String) (v : Json)
    (hall : ∀ k' v', (k', v') ∈ bucket → k' ∈ allP)
    (hnd : (bucket.map Prod.fst).Nodup)
    (hm : (k, v) ∈ bucket) :
    lookupKey (clean_kwargs_loop allP bucket params).snd k = some v := by
  induction bucket generalizing params with
  | nil => cases hm
  | cons hd tl ih =>
      obtain ⟨k0, v0⟩ := hd
      have hk0 : k0 ∈ allP := hall k0 v0 (List.mem_cons_self _ _)
      simp only [List.map_cons, List.nodup_cons] at hnd
      simp only [clean_kwargs_loop, if_pos hk0]
      rcases List.mem_cons.mp hm with h | h
      · injection h with hk hv
        subst hk
        subst hv
        rw [clean_kwargs_loop_lookup_not_mem allP tl (setKey params k v) k hnd.1]
        exact lookupKey_setKey_self params k v
      · exact ih (setKey params k0 v0)
          (fun k' v' hm' => hall k' v' (List.mem_cons_of_mem _ hm')) hnd.2 h

theorem clean_kwargs_loop_fst_eq_typeError (allP : List String)
    (bucket params : List (String × Json))
    (h : ∃ k, k ∈ bucket.map Prod.fst ∧ k ∉ allP) :
    ∃ k, k ∈ bucket.map Prod.fst ∧ k ∉ allP ∧
      (clean_kwargs_loop allP bucket params).fst =
        some (.typeError (unexpected_kwarg_msg k)) := by
  induction bucket generalizing params with
  | nil => simp at h
  | cons hd tl ih =>
      obtain ⟨k0, v0⟩ := hd
      by_cases hk0 : k0 ∈ allP
      · obtain ⟨k, hk, hkn⟩ := h
        have hk' : k ∈ tl.map Prod.fst := by
          simp only [List.map_cons, List.mem_cons] at hk
          rcases hk with h' | h'
          · exact absurd (h' ▸ hk0) hkn
          · exact h'
        obtain ⟨k', hk'1, hk'2, hk'3⟩ := ih (setKey params k0 v0) ⟨k, hk', hkn⟩
        refine ⟨k', List.mem_cons.mpr (Or.inr hk'1), hk'2, ?_⟩
        simpa only [clean_kwargs_loop, if_pos hk0] using hk'3
      · exact ⟨k0, List.mem_cons.mpr (Or.inl rfl), hk0,
          by simp only [clean_kwargs_loop, if_neg hk0]⟩

/-! ### Claim theorems -/

/-- C1: for every HTTP response whose status code lies in the inclusive
range 200 to 204 and whose body is JSON-parseable, `request` returns the
mapping `{status_code, headers, body}` with `body` the parsed JSON value of
the response body, raising no error. -/
theorem request_success_range (method url : String) (resp : HttpResponse)
    (hp ps : Option (List (String × String))) (body : Option Json) (j : Json)
    (hm : method ∈ httpMethods)
    (hs : 200 ≤ resp.status_code ∧ resp.status_code ≤ 204)
    (hb : resp.body? = some j) :
    request method url resp hp ps body =
      (.ok { status_code := resp.status_code, headers := resp.headers, body := j },
       some { method := method, url := url, headers := hp
              params := ps, body := body }) := by
  have hv : validate_response resp = .ok resp := by
    unfold validate_response
    rw [if_pos ⟨hs.1, by omega⟩]
  unfold request
  rw [if_pos hm]
  simp [hv, HttpResponse.json, hb]

/-- C1 witness: a concrete 200 response with JSON body `{"x": 1}`. -/
theorem request_success_range_witness :
    request "GET" "u" ⟨200, [("h", "v")], some (Json.obj [("x", Json.num 1)])⟩
        none none none =
      (.ok { status_code := 200, headers := [("h", "v")]
             body := Json.obj [("x", Json.num 1)] },
       some { method := "GET", url := "u", headers := none
              params := none, body := none }) :=
  request_success_range "GET" "u" ⟨200, [("h", "v")], some (Json.obj [("x", Json.num 1)])⟩
    none none none (Json.obj [("x", Json.num 1)]) (by decide) (by decide) rfl

/-- C2: for every HTTP response with status code exactly 400 whose JSON
body's nested error code `body['error']['code']` equals 283, response
validation fails by raising `ResourceNotFoundError`. -/
theorem validate_response_not_found (resp : HttpResponse)
    (fs es : List (String × Json))
    (h4 : resp.status_code = 400)
    (hb : resp.body? = some (Json.obj fs))
    (he : lookupKey fs "error" = some (Json.obj es))
    (hc : lookupKey es "code" = some (Json.num 283)) :
    validate_response resp = .error .resourceNotFound := by
  have hcond : ¬(200 ≤ resp.status_code ∧ resp.status_code < 205) := by omega
  unfold validate_response
  rw [if_neg hcond, if_pos h4]
  simp [HttpResponse.json, hb, Json.get, he, hc]

/-- C2 witness: status 400 with body `{"error": {"code": 283}}`. -/
theorem validate_response_not_found_witness :
    validate_response
        ⟨400, [], some (Json.obj [("error", Json.obj [("code", Json.num 283)])])⟩ =
      .error .resourceNotFound :=
  validate_response_not_found
    ⟨400, [], some (Json.obj [("error", Json.obj [("code", Json.num 283)])])⟩
    [("error", Json.obj [("code", Json.num 283)])] [("code", Json.num 283)]
    rfl rfl rfl rfl

/-- C3 counterexample: a 400 response whose JSON body has no `error` key is
claimed to raise `HttpCodeError`, but the code evaluates
`response.json().get('error').get('code')`, and `.get` on the `None`
returned by the first lookup raises `AttributeError` instead. -/
theorem validate_response_400_missing_error :
    validate_response ⟨400, [], some (Json.obj [])⟩ = .error .attributeError := rfl

/-- C3 amended: `HttpCodeError` carrying the raw response is raised for a
status outside 200–204 other than 400, and for a 400 whose parsed body's
`error` entry is an object whose `code` value differs from 283 (or is
missing).  A 400 with an unparseable body raises the JSON decode error
instead, and a status in 200–204 with an unparseable body passes validation
(the parseability conjunct is vacuous) and `request` then raises the JSON
decode error when re-parsing the body. -/
theorem validate_response_error_taxonomy (resp : HttpResponse) :
    (¬(200 ≤ resp.status_code ∧ resp.status_code ≤ 204) → resp.status_code ≠ 400 →
       validate_response resp = .error (.httpCode resp))
    ∧ (∀ fs es, resp.status_code = 400 → resp.body? = some (Json.obj fs) →
       lookupKey fs "error" = some (Json.obj es) →
       (∀ n : Int, (lookupKey es "code").getD Json.null = Json.num n → n ≠ 283) →
       validate_response resp = .error (.httpCode resp))
    ∧ (resp.status_code = 400 → resp.body? = none →
       validate_response resp = .error .jsonDecodeError)
    ∧ (∀ method url hp ps body, method ∈ httpMethods →
       200 ≤ resp.status_code → resp.status_code ≤ 204 → resp.body? = none →
       (request method url resp hp ps body).fst = .error .jsonDecodeError) := by
  refine ⟨fun h1 h2 => ?_, fun fs es h4 hb he hcode => ?_, fun h4 hbn => ?_,
    fun method url hp ps body hm hlo hhi hbn => ?_⟩
  · unfold validate_response
    rw [if_neg (by omega), if_neg h2]
  · have hcond : ¬(200 ≤ resp.status_code ∧ resp.status_code < 205) := by omega
    unfold validate_response
    rw [if_neg hcond, if_pos h4]
    simp only [HttpResponse.json, hb, Json.get, he, Option.getD_some]
    cases hcc : (lookupKey es "code").getD Json.null with
    | num n => simp [hcode n hcc]
    | null => rfl
    | bool b => rfl
    | str s => rfl
    | arr xs => rfl
    | obj fso => rfl
  · have hcond : ¬(200 ≤ resp.status_code ∧ resp.status_code < 205) := by omega
    unfold validate_response
    rw [if_neg hcond, if_pos h4]
    simp [HttpResponse.json, hbn]
  · have hv : validate_response resp = .ok resp := by
      unfold validate_response
      rw [if_pos ⟨hlo, by omega⟩]
    unfold request
    rw [if_pos hm]
    simp [hv, HttpResponse.json, hbn]

/-- C3 witness: a 500 response fails with `HttpCodeError` carrying it. -/
theorem validate_response_error_taxonomy_witness :
    validate_response ⟨500, [], none⟩ = .error (.httpCode ⟨500, [], none⟩) :=
  (validate_response_error_taxonomy ⟨500, [], none⟩).1 (by decide) (by decide)

/-- C4: the code evaluated on a token lacking the scheme marker.  A token
already starting with the correctly spelled `"Bearer"` is kept unchanged,
but a token lacking it gets the misspelled marker `"Barear"` prepended,
where the claim requires the correctly spelled one. -/
theorem validate_access_token_eval :
    validate_access_token "Bearer tok" = "Bearer tok"
    ∧ validate_access_token "sometoken" = "Barear sometoken" := by
  constructor <;> rfl

/-- C5: for every method string outside {GET, POST, PUT, DELETE}, `request`
fails with `InvalidHttpMethodError` and issues no HTTP call. -/
theorem request_invalid_method (method url : String) (resp : HttpResponse)
    (hp ps : Option (List (String × String))) (body : Option Json)
    (h : method ∉ httpMethods) :
    request method url resp hp ps body = (.error .invalidHttpMethod, none) := by
  unfold request
  rw [if_neg h]

/-- C5 witness: the unsupported method `PATCH`. -/
theorem request_invalid_method_witness :
    request "PATCH" "u" ⟨200, [], none⟩ none none none =
      (.error .invalidHttpMethod, none) :=
  request_invalid_method "PATCH" "u" ⟨200, [], none⟩ none none none (by decide)

theorem request_snd (method url : String) (resp : HttpResponse)
    (hp ps : Option (List (String × String))) (body : Option Json)
    (hm : method ∈ httpMethods) :
    (request method url resp hp ps body).snd =
      some { method := method, url := url, headers := hp
             params := ps, body := body } := by
  unfold request
  rw [if_pos hm]

theorem call_api_core_issuedCall (rp method : String)
    (hp ps : Option (List (String × String))) (body : Option Json) (cb : Bool)
    (resp : HttpResponse) (lastBefore : Option ResponseResult) :
    (call_api_core rp method hp ps body cb resp lastBefore).issuedCall =
      (issued_request rp method hp ps body resp).snd := by
  unfold call_api_core
  cases hfst : (issued_request rp method hp ps body resp).fst with
  | error e => rfl
  | ok pr => cases cb <;> rfl

theorem clean_kwargs_run_eq_obj (allP : List String)
    (params bucket : List (String × Json))
    (hb : lookupKey params "kwargs" = some (Json.obj bucket)) :
    clean_kwargs_run allP params =
      match clean_kwargs_loop allP bucket params with
      | (some e, mutated) => (.error e, mutated)
      | (none, mutated) => (.ok (delKey mutated "kwargs"), delKey mutated "kwargs") := by
  unfold clean_kwargs_run
  rw [hb]

/-- C6: for every allow-list and parameter mapping with a `kwargs` bucket
(well-formed dictionaries, so keys are distinct): when some bucket key is
outside the allow-list, `clean_kwargs` fails with the `TypeError` whose
message names the (first) offending key; otherwise it returns the mapping
with every bucket entry merged in and no `kwargs` key remaining. -/
theorem clean_kwargs_spec (allP : List String)
    (params bucket : List (String × Json))
    (hpnd : (params.map Prod.fst).Nodup)
    (hbnd : (bucket.map Prod.fst).Nodup)
    (hb : lookupKey params "kwargs" = some (Json.obj bucket)) :
    ((∃ k, k ∈ bucket.map Prod.fst ∧ k ∉ allP) →
       ∃ k, k ∈ bucket.map Prod.fst ∧ k ∉ allP ∧
         clean_kwargs allP params = .error (.typeError (unexpected_kwarg_msg k)))
    ∧ ((∀ k v, (k, v) ∈ bucket → k ∈ allP) →
       ∃ res, clean_kwargs allP params = .ok res ∧
         lookupKey res "kwargs" = none ∧
         ∀ k v, (k, v) ∈ bucket → k ≠ "kwargs" → lookupKey res k = some v) := by
  constructor
  · intro hex
    obtain ⟨k, hk1, hk2, hk3⟩ := clean_kwargs_loop_fst_eq_typeError allP bucket params hex
    refine ⟨k, hk1, hk2, ?_⟩
    rcases hsplit : clean_kwargs_loop allP bucket params with ⟨f, mdict⟩
    rw [hsplit] at hk3
    simp only at hk3
    subst hk3
    unfold clean_kwargs
    rw [clean_kwargs_run_eq_obj allP params bucket hb, hsplit]
  · intro hall
    have hnone := clean_kwargs_loop_fst_eq_none allP bucket params hall
    have hmnd := clean_kwargs_loop_nodup allP bucket params hpnd
    rcases hsplit : clean_kwargs_loop allP bucket params with ⟨f, mdict⟩
    rw [hsplit] at hnone hmnd
    simp only at hnone hmnd
    subst hnone
    refine ⟨delKey mdict "kwargs", ?_, ?_, ?_⟩
    · unfold clean_kwargs
      rw [clean_kwargs_run_eq_obj allP params bucket hb, hsplit]
    · exact lookupKey_delKey_self mdict "kwargs" hmnd
    · intro k v hkv hkne
      have hl := clean_kwargs_loop_lookup_mem allP bucket params k v hall hbnd hkv
      rw [hsplit] at hl
      simp only at hl
      rw [lookupKey_delKey_ne mdict "kwargs" k (fun he => hkne he.symm)]
      exact hl

/-- C6 witness: the spec's example `clean_kwargs({"a","b"}, {"kwargs": {"a": 1}})`
succeeds with the bucket entry merged and no `kwargs` key left. -/
theorem clean_kwargs_spec_witness :
    ∃ res, clean_kwargs ["a", "b"] [("kwargs", Json.obj [("a", Json.num 1)])] = .ok res ∧
      lookupKey res "kwargs" = none ∧
      ∀ k v, (k, v) ∈ [("a", Json.num 1)] → k ≠ "kwargs" → lookupKey res k = some v :=
  (clean_kwargs_spec ["a", "b"] [("kwargs", Json.obj [("a", Json.num 1)])]
      [("a", Json.num 1)] (by simp) (by simp) rfl).2
    (by intro k v h; simp at h; simp [h.1])

/-- C7: a synchronous `call_api` invocation (no callback) that completes
without error runs on the primary session, returns the Response Result
directly, and sets the client's `last_response` field to that same result. -/
theorem call_api_sync_behavior (rp method : String)
    (hp ps : Option (List (String × String))) (body : Option Json)
    (resp : HttpResponse) (lastBefore : Option ResponseResult) (pr : ResponseResult)
    (h : (issued_request rp method hp ps body resp).fst = .ok pr) :
    call_api rp method hp ps body false resp lastBefore = .ok (.sync (some pr))
    ∧ (call_api_core rp method hp ps body false resp lastBefore).sessionUsed = .primary
    ∧ (call_api_core rp method hp ps body false resp lastBefore).lastResponseAfter = some pr := by
  have hcore : call_api_core rp method hp ps body false resp lastBefore =
      { sessionUsed := .primary
        issuedCall := (issued_request rp method hp ps body resp).snd
        result := .ok (some pr), callbackArg := none
        lastResponseAfter := some pr } := by
    unfold call_api_core
    rw [h]
    rfl
  refine ⟨?_, by rw [hcore], by rw [hcore]⟩
  unfold call_api
  rw [hcore]
  rfl

/-- C7 witness: a concrete successful synchronous GET. -/
theorem call_api_sync_behavior_witness :
    call_api "/x" "GET" none none none false ⟨200, [], some Json.null⟩ none =
      .ok (.sync (some ⟨200, [], Json.null⟩))
    ∧ (call_api_core "/x" "GET" none none none false
        ⟨200, [], some Json.null⟩ none).sessionUsed = .primary
    ∧ (call_api_core "/x" "GET" none none none false
        ⟨200, [], some Json.null⟩ none).lastResponseAfter =
        some ⟨200, [], Json.null⟩ :=
  call_api_sync_behavior "/x" "GET" none none none ⟨200, [], some Json.null⟩
    none ⟨200, [], Json.null⟩ rfl

/-- C8 counterexample: calling `request` directly with a non-empty body and
empty headers issues the HTTP call with the headers exactly as passed —
`request` itself attaches no `Content-Type` header (the attachment happens
earlier, in `__call_api`). -/
theorem request_adds_no_content_type :
    (request "POST" "u" ⟨200, [], some Json.null⟩ (some []) none
        (some (Json.obj [("a", Json.num 1)]))).snd =
      some { method := "POST", url := "u", headers := some [], params := none
             body := some (Json.obj [("a", Json.num 1)]) } := rfl

/-- C8 amended: the `Content-Type: application/json` header is attached by
`__call_api` (not by `request`) before delegating: whenever `body` is a
non-empty object the effective headers of the HTTP call issued by any
`call_api` path contain it, and when `body` is absent or an empty object
the headers are passed through unchanged. -/
theorem content_type_effective_headers (hp : Option (List (String × String)))
    (body : Option Json) (rp method : String)
    (ps : Option (List (String × String))) (resp : HttpResponse)
    (lastBefore : Option ResponseResult) :
    (∀ fs, body = some (Json.obj fs) → fs ≠ [] →
       lookupKey (effective_headers hp body) "Content-Type" =
         some "application/json")
    ∧ ((body = none ∨ body = some (Json.obj [])) →
       effective_headers hp body = hp.getD [])
    ∧ (∀ cb : Bool, method ∈ httpMethods →
       (call_api_core rp method hp ps body cb resp lastBefore).issuedCall =
         some { method := method, url := venmoHost ++ rp
                headers := some (effective_headers hp body)
                params := ps, body := body }) := by
  refine ⟨fun fs hfs hne => ?_, fun hcase => ?_, fun cb hm => ?_⟩
  · have hne' : fs.isEmpty = false := by
      cases fs with
      | nil => exact absurd rfl hne
      | cons a l => rfl
    subst hfs
    unfold effective_headers
    simp only [pyTruthy?, Json.pyTruthy, hne', Bool.not_false, if_true]
    exact lookupKey_setKey_self (hp.getD []) "Content-Type" "application/json"
  · rcases hcase with h | h <;> subst h <;> rfl
  · rw [call_api_core_issuedCall]
    exact request_snd method (venmoHost ++ rp) resp
      (some (effective_headers hp body)) ps body hm

/-- C8 witness: a non-empty body gets the header on the `call_api` path. -/
theorem content_type_effective_headers_witness :
    lookupKey (effective_headers none (some (Json.obj [("a", Json.num 1)])))
        "Content-Type" = some "application/json"
    ∧ (call_api_core "/p" "POST" none none (some (Json.obj [("a", Json.num 1)]))
        false ⟨200, [], some Json.null⟩ none).issuedCall =
      some { method := "POST", url := venmoHost ++ "/p"
             headers := some (effective_headers none (some (Json.obj [("a", Json.num 1)])))
             params := none, body := some (Json.obj [("a", Json.num 1)]) } :=
  ⟨(content_type_effective_headers none (some (Json.obj [("a", Json.num 1)]))
      "/p" "POST" none ⟨200, [], some Json.null⟩ none).1
      [("a", Json.num 1)] rfl (by simp),
   (content_type_effective_headers none (some (Json.obj [("a", Json.num 1)]))
      "/p" "POST" none ⟨200, [], some Json.null⟩ none).2.2 false (by decide)⟩

/-- C9: with a callback present, `call_api` returns the started worker
thread (not the Response Result); the worker performs the identical HTTP
call on a freshly created session (never the primary one), hands the
Response Result to the callback as its sole argument, and returns `None`. -/
theorem call_api_async_behavior (rp method : String)
    (hp ps : Option (List (String × String))) (body : Option Json)
    (resp : HttpResponse) (lastBefore : Option ResponseResult) (pr : ResponseResult)
    (h : (issued_request rp method hp ps body resp).fst = .ok pr) :
    call_api rp method hp ps body true resp lastBefore =
      .ok (.thread { resource_path := rp, method := method
                     header_params := hp, params := ps, body := body })
    ∧ (runWorker { resource_path := rp, method := method, header_params := hp
                   params := ps, body := body } resp lastBefore).sessionUsed = .fresh
    ∧ (runWorker { resource_path := rp, method := method, header_params := hp
                   params := ps, body := body } resp lastBefore).callbackArg = some pr
    ∧ (runWorker { resource_path := rp, method := method, header_params := hp
                   params := ps, body := body } resp lastBefore).result = .ok none
    ∧ (runWorker { resource_path := rp, method := method, header_params := hp
                   params := ps, body := body } resp lastBefore).issuedCall =
        (call_api_core rp method hp ps body false resp lastBefore).issuedCall := by
  have hw : runWorker { resource_path := rp, method := method, header_params := hp
                        params := ps, body := body } resp lastBefore =
      { sessionUsed := .fresh
        issuedCall := (issued_request rp method hp ps body resp).snd
        result := .ok none, callbackArg := some pr
        lastResponseAfter := some pr } := by
    unfold runWorker call_api_core
    rw [h]
    rfl
  refine ⟨rfl, by rw [hw], by rw [hw], by rw [hw], ?_⟩
  rw [hw, call_api_core_issuedCall]

/-- C9 witness: a concrete successful asynchronous call. -/
theorem call_api_async_behavior_witness :
    call_api "/y" "POST" none none none true ⟨201, [], some (Json.bool true)⟩ none =
      .ok (.thread { resource_path := "/y", method := "POST"
                     header_params := none, params := none, body := none })
    ∧ (runWorker { resource_path := "/y", method := "POST", header_params := none
                   params := none, body := none } ⟨201, [], some (Json.bool true)⟩
        none).sessionUsed = .fresh
    ∧ (runWorker { resource_path := "/y", method := "POST", header_params := none
                   params := none, body := none } ⟨201, [], some (Json.bool true)⟩
        none).callbackArg = some ⟨201, [], Json.bool true⟩
    ∧ (runWorker { resource_path := "/y", method := "POST", header_params := none
                   params := none, body := none } ⟨201, [], some (Json.bool true)⟩
        none).result = .ok none
    ∧ (runWorker { resource_path := "/y", method := "POST", header_params := none
                   params := none, body := none } ⟨201, [], some (Json.bool true)⟩
        none).issuedCall =
        (call_api_core "/y" "POST" none none none false
          ⟨201, [], some (Json.bool true)⟩ none).issuedCall :=
  call_api_async_behavior "/y" "POST" none none none ⟨201, [], some (Json.bool true)⟩
    none ⟨201, [], Json.bool true⟩ rfl

/-- C10: `clean_kwargs` mutates the parameter dictionary as it iterates, so
on the failing input `{"kwargs": {"a": 1, "c": 2}}` with allow-list
`{"a","b"}` the `TypeError` names `"c"`, yet the entry `"a"` merged before
the failure remains and the `kwargs` bucket is still present: the dictionary
after the call differs from the one passed in. -/
theorem clean_kwargs_mutates_on_failure :
    (clean_kwargs_run ["a", "b"]
        [("kwargs", Json.obj [("a", Json.num 1), ("c", Json.num 2)])]).fst
      = .error (.typeError (unexpected_kwarg_msg "c"))
    ∧ (clean_kwargs_run ["a", "b"]
        [("kwargs", Json.obj [("a", Json.num 1), ("c", Json.num 2)])]).snd
      = [("kwargs", Json.obj [("a", Json.num 1), ("c", Json.num 2)]),
         ("a", Json.num 1)]
    ∧ (clean_kwargs_run ["a", "b"]
        [("kwargs", Json.obj [("a", Json.num 1), ("c", Json.num 2)])]).snd
      ≠ [("kwargs", Json.obj [("a", Json.num 1), ("c", Json.num 2)])] := by
  refine ⟨rfl, rfl, fun hcontra => ?_⟩
  have h2 : (clean_kwargs_run ["a", "b"]
      [("kwargs", Json.obj [("a", Json.num 1), ("c", Json.num 2)])]).snd
      = [("kwargs", Json.obj [("a", Json.num 1), ("c", Json.num 2)]),
         ("a", Json.num 1)] := rfl
  rw [h2] at hcontra
  have hlen := congrArg List.length hcontra
  simp at hlen
